import Mathlib

/-
Shallow embedding of the alice-lg configuration loader (backend/config.go)
and of the BioRIS source adapter (backend/sources/bioris/source.go and its
configuration file). Go strings are modelled as Lean String values; Go byte
slicing is modelled through character lists, which coincides with the byte
view on the ASCII section names involved. Go functions returning a value
and an error are modelled with Except; functions that can call log.Fatal
are modelled with an outcome type carrying an explicit fatal constructor.
-/

/-- Locate the first occurrence of a character in a character list: the part
before it and the part after it, or none when the character does not occur.
This is the basic block for the Go strings.Split and strings.SplitN models. -/
def splitFirst (c : Char) : List Char → Option (List Char × List Char)
  | [] => none
  | x :: xs =>
    if x = c then some ([], xs)
    else match splitFirst c xs with
      | none => none
      | some (p, q) => some (x :: p, q)

/-- Accumulator form of Go strings.Split for a one-character separator. -/
def goSplitAux (c : Char) : List Char → List Char → List (List Char)
  | [], acc => [acc.reverse]
  | x :: xs, acc =>
    if x = c then acc.reverse :: goSplitAux c xs []
    else goSplitAux c xs (x :: acc)

/-- Go strings.Split for a one-character separator (the only separators the
source uses are one character long). -/
def goSplitChars (c : Char) (s : List Char) : List (List Char) := goSplitAux c s []

/-- Go strings.SplitN for a one-character separator: at most n pieces, the
last piece keeping any remaining separators. -/
def goSplitNChars (c : Char) : Nat → List Char → List (List Char)
  | 0, _ => []
  | 1, s => [s]
  | n + 2, s =>
    match splitFirst c s with
    | none => [s]
    | some (p, q) => p :: goSplitNChars c (n + 1) q

/-- Go strings.Split on String values. -/
def goSplit (c : Char) (s : String) : List String :=
  (goSplitChars c s.toList).map List.asString

/-- Go strings.SplitN on String values. -/
def goSplitN (c : Char) (n : Nat) (s : String) : List String :=
  (goSplitNChars c n s.toList).map List.asString

/-- Go strings.TrimSpace (whitespace in the sense of Char.isWhitespace). -/
def goTrim (s : String) : String :=
  (((s.toList.dropWhile Char.isWhitespace).reverse.dropWhile Char.isWhitespace).reverse).asString

/-- Go strings.HasPrefix. -/
def goHasPfx (p s : String) : Bool := p.toList.isPrefixOf s.toList

/-- Go strings.HasSuffix. -/
def goHasSfx (p s : String) : Bool := p.toList.isSuffixOf s.toList

/-- Go string slicing s[n:], for the ASCII section names of the loader. -/
def goDropBytes (n : Nat) (s : String) : String := (s.toList.drop n).asString

/-- Decimal digit run, accumulator form. -/
def parseDigitsAux : List Char → Nat → Option Nat
  | [], acc => some acc
  | c :: cs, acc =>
    if c.isDigit then parseDigitsAux cs (acc * 10 + (c.toNat - 48)) else none

/-- Nonempty decimal digit run. -/
def parseDigits : List Char → Option Nat
  | [] => none
  | l => parseDigitsAux l 0

/-- Model of Go strconv signed decimal parsing (optional sign, digits). -/
def parseGoInt (s : String) : Option Int :=
  match s.toList with
  | '-' :: rest => (parseDigits rest).map (fun n => -(n : Int))
  | '+' :: rest => (parseDigits rest).map (fun n => (n : Int))
  | l => (parseDigits l).map (fun n => (n : Int))

/-- Model of Go strconv unsigned decimal parsing. -/
def parseGoNat (s : String) : Option Nat := parseDigits s.toList

/-- Go fmt %v rendering of a string slice, used by the rpki error message. -/
def goFmtStrList (l : List String) : String :=
  "[" ++ String.intercalate " " l ++ "]"

/-- One parsed ini section: its name, its key/value pairs in declaration
order, and its raw body (go-ini keeps the raw body for the sections listed
as unparseable by loadConfig). -/
structure IniSection where
  name : String
  keys : List (String × String) := []
  body : String := ""
deriving DecidableEq, Repr

/-- The parsed configuration file: the named sections in file order. This is
the tree the external ini parser is assumed to produce. -/
abbrev IniFile := List IniSection

/-- Lookup of a section by exact name. go-ini File.Section creates missing
sections on the fly; the creation of an empty section is modelled at each
use through the none case. -/
def findSection (cfg : IniFile) (n : String) : Option IniSection :=
  cfg.find? (fun s => s.name == n)

/-- Lookup of a key value inside a section. -/
def getKeyVal (sec : IniSection) (k : String) : Option String :=
  (sec.keys.find? (fun p => p.1 == k)).map (fun p => p.2)

/-- Model of go-ini Key(k).MustString(dflt): the default is returned when
the key is missing or its value is empty. -/
def mustString (sec : IniSection) (k dflt : String) : String :=
  match getKeyVal sec k with
  | some v => if v = "" then dflt else v
  | none => dflt

/-- Key(k).MustString read through the optional section of a file. -/
def mustStringIn (cfg : IniFile) (n k dflt : String) : String :=
  match findSection cfg n with
  | some sec => mustString sec k dflt
  | none => dflt

/-- Model of go-ini Key(k).MustInt(dflt). -/
def mustInt (sec : IniSection) (k : String) (dflt : Int) : Int :=
  match getKeyVal sec k with
  | some v => (parseGoInt v).getD dflt
  | none => dflt

/-- go-ini File.ChildSections(name) and Section.ChildSections: the sections
whose name extends the given name by a dot separator, in file order. -/
def childSectionsNamed (cfg : IniFile) (n : String) : List IniSection :=
  cfg.filter (fun s => goHasPfx (n ++ ".") s.name)

/-- Modelled from the spec: the BgpCommunities type (the community model
file is not part of the provided sources). The spec describes it as a
mapping from a community tuple key to a label where insertion order is
irrelevant and later Set calls for the same key overwrite; it is modelled
as a lookup function on the colon-joined key. -/
def BgpCommunities := String → Option String

/-- Modelled from the spec: Set is an idempotent upsert on the mapping. -/
def BgpCommunities.set (cs : BgpCommunities) (k v : String) : BgpCommunities :=
  fun q => if q = k then some v else cs q

/-- Modelled from the spec: the compiled-in well-known default table.
MakeWellKnownBgpCommunities is not part of the provided sources; the spec
fixes only that it is a fixed compiled-in table of standard community
meanings, so the entries below are representative. -/
def MakeWellKnownBgpCommunities : BgpCommunities := fun k =>
  if k = "65535:666" then some "blackhole"
  else if k = "65535:65281" then some "no-export"
  else if k = "65535:65282" then some "no-advertise"
  else none

/-- Translation of parseAndMergeCommunities (config.go): split the raw body
into lines, skip every line without an equals sign, and Set the trimmed
left side to the trimmed right side. -/
def parseAndMergeCommunities (communities : BgpCommunities) (body : String) :
    BgpCommunities :=
  (goSplit '\n' body).foldl
    (fun cs line =>
      match goSplitN '=' 2 line with
      | [k, v] => cs.set (goTrim k) (goTrim v)
      | _ => cs)
    communities

/-- Translation of getBgpCommunities (config.go): the well-known defaults
merged with the raw body of the bgp_communities section. -/
def getBgpCommunities (cfg : IniFile) : BgpCommunities :=
  let communities := MakeWellKnownBgpCommunities
  match findSection cfg "bgp_communities" with
  | none => communities
  | some sec => parseAndMergeCommunities communities sec.body

/-- Model of the go-ini Strings(",") reading used by MapTo on slice fields:
a missing key leaves the field untouched, an empty value yields an empty
slice, otherwise the value is split on commas and trimmed. -/
def keyStrings (sec : IniSection) (k : String) (dflt : List String) : List String :=
  match getKeyVal sec k with
  | none => dflt
  | some v => if v = "" then [] else (goSplit ',' v).map goTrim

/-- Model of Go strconv.ParseBool. -/
def parseGoBool (s : String) : Option Bool :=
  if s = "1" ∨ s = "t" ∨ s = "T" ∨ s = "true" ∨ s = "TRUE" ∨ s = "True" then some true
  else if s = "0" ∨ s = "f" ∨ s = "F" ∨ s = "false" ∨ s = "FALSE" ∨ s = "False" then some false
  else none

/-- Boolean field reading of MapTo: missing or unparseable keeps the field. -/
def keyBool (sec : IniSection) (k : String) (dflt : Bool) : Bool :=
  match getKeyVal sec k with
  | none => dflt
  | some v => (parseGoBool v).getD dflt

/-- Integer field reading of MapTo: missing or unparseable keeps the field. -/
def keyInt (sec : IniSection) (k : String) (dflt : Int) : Int :=
  match getKeyVal sec k with
  | none => dflt
  | some v => (parseGoInt v).getD dflt

/-- Unsigned field reading of MapTo. -/
def keyNat (sec : IniSection) (k : String) (dflt : Nat) : Nat :=
  match getKeyVal sec k with
  | none => dflt
  | some v => (parseGoNat v).getD dflt

/-- Translation of RpkiConfig (config.go). -/
structure RpkiConfig where
  enabled : Bool := false
  valid : List String := []
  unknown : List String := []
  notChecked : List String := []
  invalid : List String := []
deriving DecidableEq, Repr

/-- Model of Section("rpki").MapTo on RpkiConfig. -/
def rpkiMapTo (sec : IniSection) (r : RpkiConfig) : RpkiConfig :=
  { r with
    enabled := keyBool sec "enabled" r.enabled
    valid := keyStrings sec "valid" r.valid
    unknown := keyStrings sec "unknown" r.unknown
    notChecked := keyStrings sec "not_checked" r.notChecked
    invalid := keyStrings sec "invalid" r.invalid }

/-- Translation of getOwnASN (config.go): the asn key of the server section,
with -1 as the sentinel for a missing value. -/
def getOwnASN (cfg : IniFile) : Except String Int :=
  let asn : Int := match findSection cfg "server" with
    | some sec => mustInt sec "asn" (-1)
    | none => -1
  if asn = -1 then .error "Could not get own ASN from config"
  else .ok asn

/-- Translation of getRpkiConfig (config.go): each triplet is either taken
from the configuration and split on colons, or defaulted from the own ASN;
the invalid triplet splits its third token on a dash range and a configured
value with a colon token count other than three is a hard error. -/
def getRpkiConfig (cfg : IniFile) : Except String RpkiConfig :=
  let rpki : RpkiConfig := match findSection cfg "rpki" with
    | some sec => rpkiMapTo sec {}
    | none => {}
  let fallbackAsn : Int := match getOwnASN cfg with
    | .ok a => a
    | .error _ => 0
  let ownAsn := toString fallbackAsn
  let rpki := { rpki with valid :=
    match rpki.valid with
    | [] => [ownAsn, "1000", "1"]
    | v0 :: _ => goSplitN ':' 3 v0 }
  let rpki := { rpki with unknown :=
    match rpki.unknown with
    | [] => [ownAsn, "1000", "2"]
    | v0 :: _ => goSplitN ':' 3 v0 }
  let rpki := { rpki with notChecked :=
    match rpki.notChecked with
    | [] => [ownAsn, "1000", "3"]
    | v0 :: _ => goSplitN ':' 3 v0 }
  match rpki.invalid with
  | [] => .ok { rpki with invalid := [ownAsn, "1000", "4", "*"] }
  | v0 :: _ =>
    let parts := goSplitN ':' 3 v0
    match parts with
    | [a, b, c] => .ok { rpki with invalid := [a, b] ++ goSplit '-' c }
    | _ => .error ("Unexpected rpki.Invalid configuration: " ++ goFmtStrList parts)

/-- Translation of getRoutesColumnsDefaults (config.go). -/
def getRoutesColumnsDefaults : List (String × String) × List String :=
  ([("network", "Network"), ("bgp.as_path", "AS Path"),
    ("gateway", "Gateway"), ("interface", "Interface")],
   ["network", "bgp.as_path", "gateway", "interface"])

/-- Shared reading pattern of the three column getters: the configured keys
and their order replace the defaults entirely unless the section is absent
or has no keys. -/
def columnsFromSection (cfg : IniFile) (n : String)
    (dflt : List (String × String) × List String) :
    List (String × String) × List String :=
  let keys := match findSection cfg n with
    | some sec => sec.keys
    | none => []
  if keys = [] then dflt
  else (keys, keys.map (fun p => p.1))

/-- Translation of getRoutesColumns (config.go). -/
def getRoutesColumns (cfg : IniFile) : List (String × String) × List String :=
  columnsFromSection cfg "routes_columns" getRoutesColumnsDefaults

/-- Translation of getNeighboursColumnsDefaults (config.go). -/
def getNeighboursColumnsDefaults : List (String × String) × List String :=
  ([("address", "Neighbour"), ("asn", "ASN"), ("state", "State"),
    ("Uptime", "Uptime"), ("Description", "Description"),
    ("routes_received", "Routes Recv."), ("routes_filtered", "Routes Filtered")],
   ["address", "asn", "state", "Uptime", "Description",
    "routes_received", "routes_filtered"])

/-- Translation of getNeighboursColumns (config.go). -/
def getNeighboursColumns (cfg : IniFile) : List (String × String) × List String :=
  columnsFromSection cfg "neighbours_columns" getNeighboursColumnsDefaults

/-- Translation of getLookupColumnsDefaults (config.go). -/
def getLookupColumnsDefaults : List (String × String) × List String :=
  ([("network", "Network"), ("gateway", "Gateway"), ("neighbour.asn", "ASN"),
    ("neighbour.description", "Neighbor"), ("bgp.as_path", "AS Path"),
    ("routeserver.name", "RS")],
   ["network", "gateway", "bgp.as_path", "neighbour.asn",
    "neighbour.description", "routeserver.name"])

/-- Translation of getLookupColumns (config.go). -/
def getLookupColumns (cfg : IniFile) : List (String × String) × List String :=
  columnsFromSection cfg "lookup_columns" getLookupColumnsDefaults

/-- Translation of RejectionsConfig (config.go). -/
structure RejectionsConfig where
  reasons : BgpCommunities := fun _ => none

/-- Translation of NoexportsConfig (config.go). -/
structure NoexportsConfig where
  reasons : BgpCommunities := fun _ => none
  loadOnDemand : Bool := false

/-- Translation of RejectCandidatesConfig (config.go). -/
structure RejectCandidatesConfig where
  communities : BgpCommunities := fun _ => none

/-- Translation of getRoutesRejections (config.go): the raw body of the
rejection_reasons section merged into a fresh community set. -/
def getRoutesRejections (cfg : IniFile) : Except String RejectionsConfig :=
  let body := match findSection cfg "rejection_reasons" with
    | some sec => sec.body
    | none => ""
  .ok { reasons := parseAndMergeCommunities (fun _ => none) body }

/-- Translation of getRoutesNoexports (config.go): the noexport section is
mapped onto the struct and the noexport_reasons body merged like the
rejection reasons. -/
def getRoutesNoexports (cfg : IniFile) : Except String NoexportsConfig :=
  let lod := match findSection cfg "noexport" with
    | some sec => keyBool sec "load_on_demand" false
    | none => false
  let body := match findSection cfg "noexport_reasons" with
    | some sec => sec.body
    | none => ""
  .ok { loadOnDemand := lod, reasons := parseAndMergeCommunities (fun _ => none) body }

/-- Translation of getRejectCandidatesConfig (config.go): the communities
key split on commas, each entry labelled reject-candidate-N by 1-based
position. -/
def getRejectCandidatesConfig (cfg : IniFile) : Except String RejectCandidatesConfig :=
  let candidateCommunities := match findSection cfg "rejection_candidates" with
    | some sec => (getKeyVal sec "communities").getD ""
    | none => ""
  if candidateCommunities = "" then .ok {}
  else
    .ok { communities :=
      ((goSplit ',' candidateCommunities).enum.foldl
        (fun (cs : BgpCommunities) p =>
          cs.set p.2 ("reject-candidate-" ++ toString (p.1 + 1)))
        (fun _ => none)) }

/-- Translation of ThemeConfig (config.go). -/
structure ThemeConfig where
  path : String := ""
  basePath : String := ""
deriving DecidableEq, Repr

/-- Translation of getThemeConfig (config.go): url_base defaults to /theme
when unset. -/
def getThemeConfig (cfg : IniFile) : ThemeConfig :=
  let t : ThemeConfig := match findSection cfg "theme" with
    | some sec => { path := mustString sec "path" "", basePath := mustString sec "url_base" "" }
    | none => {}
  if t.basePath = "" then { t with basePath := "/theme" } else t

/-- Translation of PaginationConfig (config.go). -/
structure PaginationConfig where
  routesFilteredPageSize : Int := 0
  routesAcceptedPageSize : Int := 0
  routesNotExportedPageSize : Int := 0
deriving DecidableEq, Repr

/-- Translation of getPaginationConfig (config.go). -/
def getPaginationConfig (cfg : IniFile) : PaginationConfig :=
  match findSection cfg "pagination" with
  | some sec =>
    { routesFilteredPageSize := keyInt sec "routes_filtered_page_size" 0
      routesAcceptedPageSize := keyInt sec "routes_accepted_page_size" 0
      routesNotExportedPageSize := keyInt sec "routes_not_exported_page_size" 0 }
  | none => {}

/-- Translation of ServerConfig (config.go). -/
structure ServerConfig where
  listen : String := ""
  enablePrefixLookup : Bool := false
  neighboursStoreRefreshInterval : Int := 0
  routesStoreRefreshInterval : Int := 0
  asn : Int := 0
  enableNeighborsStatusRefresh : Bool := false
deriving DecidableEq, Repr

/-- Model of Section("server").MapTo on ServerConfig. -/
def getServerConfig (cfg : IniFile) : ServerConfig :=
  match findSection cfg "server" with
  | some sec =>
    { listen := mustString sec "listen_http" ""
      enablePrefixLookup := keyBool sec "enable_prefix_lookup" false
      neighboursStoreRefreshInterval := keyInt sec "neighbours_store_refresh_interval" 0
      routesStoreRefreshInterval := keyInt sec "routes_store_refresh_interval" 0
      asn := keyInt sec "asn" 0
      enableNeighborsStatusRefresh := keyBool sec "enable_neighbors_status_refresh" false }
  | none => {}

/-- Translation of HousekeepingConfig (config.go). -/
structure HousekeepingConfig where
  interval : Int := 0
  forceReleaseMemory : Bool := false
deriving DecidableEq, Repr

/-- Model of Section("housekeeping").MapTo on HousekeepingConfig. -/
def getHousekeepingConfig (cfg : IniFile) : HousekeepingConfig :=
  match findSection cfg "housekeeping" with
  | some sec =>
    { interval := keyInt sec "interval" 0
      forceReleaseMemory := keyBool sec "force_release_memory" false }
  | none => {}

/-- Translation of UiConfig (config.go); the column maps are represented as
association lists in declaration order. -/
structure UiConfig where
  routesColumns : List (String × String)
  routesColumnsOrder : List String
  neighboursColumns : List (String × String)
  neighboursColumnsOrder : List String
  lookupColumns : List (String × String)
  lookupColumnsOrder : List String
  routesRejections : RejectionsConfig
  routesNoexports : NoexportsConfig
  routesRejectCandidates : RejectCandidatesConfig
  bgpCommunities : BgpCommunities
  rpki : RpkiConfig
  theme : ThemeConfig
  pagination : PaginationConfig

/-- Translation of getUiConfig (config.go): sequence the derivation
functions and surface the first error; the reject candidate error is
discarded exactly as in the source. -/
def getUiConfig (cfg : IniFile) : Except String UiConfig := do
  let (routesColumns, routesColumnsOrder) := getRoutesColumns cfg
  let (neighboursColumns, neighboursColumnsOrder) := getNeighboursColumns cfg
  let (lookupColumns, lookupColumnsOrder) := getLookupColumns cfg
  let rejections ← getRoutesRejections cfg
  let noexports ← getRoutesNoexports cfg
  let rejectCandidates := match getRejectCandidatesConfig cfg with
    | .ok v => v
    | .error _ => {}
  let rpki ← getRpkiConfig cfg
  let themeConfig := getThemeConfig cfg
  let paginationConfig := getPaginationConfig cfg
  return {
    routesColumns := routesColumns
    routesColumnsOrder := routesColumnsOrder
    neighboursColumns := neighboursColumns
    neighboursColumnsOrder := neighboursColumnsOrder
    lookupColumns := lookupColumns
    lookupColumnsOrder := lookupColumnsOrder
    routesRejections := rejections
    routesNoexports := noexports
    routesRejectCandidates := rejectCandidates
    bgpCommunities := getBgpCommunities cfg
    rpki := rpki
    theme := themeConfig
    pagination := paginationConfig }

/-- Translation of the SOURCE_* backend type constants (config.go) as a
closed enumeration. -/
inductive BackendType
  | unknownBackend
  | birdwatcherBackend
  | gobgpBackend
  | biorisBackend
deriving DecidableEq, Repr

/-- Translation of isSourceBase (config.go): the section name splits on
dots into exactly two segments. -/
def isSourceBase (sec : IniSection) : Bool :=
  (goSplit '.' sec.name).length == 2

/-- Translation of getBackendType (config.go): suffix match of the backend
section name against the known backend keywords, in source order. -/
def getBackendType (sec : IniSection) : BackendType :=
  if goHasSfx "birdwatcher" sec.name then .birdwatcherBackend
  else if goHasSfx "gobgp" sec.name then .gobgpBackend
  else if goHasSfx "bioris" sec.name then .biorisBackend
  else .unknownBackend

/-- Modelled from the spec: the birdwatcher backend configuration struct
(the birdwatcher package is not part of the provided sources); only the
fields assigned in getSources (config.go) are modelled. -/
structure BirdwatcherConfig where
  id : String := ""
  name : String := ""
  timezone : String := ""
  serverTime : String := ""
  serverTimeShort : String := ""
  serverTimeExt : String := ""
  type : String := ""
  peerTablePfx : String := ""
  pipeProtocolPfx : String := ""
deriving DecidableEq, Repr

/-- Modelled from the spec: MapTo on the birdwatcher configuration. The ini
tags of that struct are outside the provided sources; the mapping is
modelled as overriding the fields read explicitly in getSources from their
like-named keys, other keys leaving the defaulted fields untouched. -/
def birdwatcherMapTo (sec : IniSection) (c : BirdwatcherConfig) : BirdwatcherConfig :=
  { c with
    type := mustString sec "type" c.type
    peerTablePfx := mustString sec "peer_table_prefix" c.peerTablePfx
    pipeProtocolPfx := mustString sec "pipe_protocol_prefix" c.pipeProtocolPfx }

/-- Modelled from the spec: the gobgp backend configuration struct (not part
of the provided sources); only the fields assigned in getSources are
modelled. -/
structure GobgpConfig where
  id : String := ""
  name : String := ""
deriving DecidableEq, Repr

/-- Modelled from the spec: MapTo on the gobgp configuration; no modelled
field has a known ini tag, so the struct passes through. -/
def gobgpMapTo (_sec : IniSection) (c : GobgpConfig) : GobgpConfig := c

/-- Translation of the BioRIS Config struct (bioris configuration file):
Id and Name plus the api, router and vrf_id keys. -/
structure BiorisConfig where
  id : String := ""
  name : String := ""
  api : String := ""
  router : String := ""
  vrfid : Nat := 0
deriving DecidableEq, Repr

/-- Model of MapTo on the BioRIS configuration, from the ini tags of the
source file (api, router, vrf_id) and the untagged Id and Name fields. -/
def biorisMapTo (sec : IniSection) (c : BiorisConfig) : BiorisConfig :=
  { c with
    id := mustString sec "Id" c.id
    name := mustString sec "Name" c.name
    api := mustString sec "api" c.api
    router := mustString sec "router" c.router
    vrfid := keyNat sec "vrf_id" c.vrfid }

/-- Translation of Config.Verify (bioris configuration file). -/
def biorisVerify (c : BiorisConfig) : Except String Unit :=
  if c.api = "" then .error "Missing api configuration"
  else if c.router = "" then .error "A router needs to be specified"
  else .ok ()

/-- External handle standing for a grpc client connection. -/
structure GrpcConn where
  ready : Bool := false
deriving DecidableEq, Repr

/-- Translation of the BioRIS struct (source.go): the configuration and the
optional reusable connection handle. -/
structure BioRIS where
  config : BiorisConfig
  grpcConn : Option GrpcConn := none
deriving DecidableEq, Repr

/-- Translation of NewBioRIS (source.go): wraps the configuration and
performs no dial. -/
def NewBioRIS (config : BiorisConfig) : BioRIS := { config := config }

/-- Modelled from the spec: the birdwatcher adapter instance; construction
wraps the configuration without network activity. -/
structure BirdwatcherInstance where
  config : BirdwatcherConfig
deriving DecidableEq, Repr

/-- Modelled from the spec: the birdwatcher constructor. -/
def NewBirdwatcher (config : BirdwatcherConfig) : BirdwatcherInstance :=
  { config := config }

/-- Modelled from the spec: the gobgp adapter instance. -/
structure GobgpInstance where
  config : GobgpConfig
deriving DecidableEq, Repr

/-- Modelled from the spec: the gobgp constructor. -/
def NewGoBGP (config : GobgpConfig) : GobgpInstance := { config := config }

/-- The sources.Source interface value held by a descriptor, as a closed
sum over the supported adapters. -/
inductive SourceInstance
  | birdwatcherSrc (b : BirdwatcherInstance)
  | gobgpSrc (g : GobgpInstance)
  | biorisSrc (b : BioRIS)
deriving DecidableEq, Repr

/-- Translation of SourceConfig (config.go); the nil interface value of the
lazily created instance field is modelled as none, and the order counter,
always nonnegative, as Nat. -/
structure SourceConfig where
  id : String
  order : Nat
  name : String
  group : String
  blackholes : List String
  type : BackendType
  birdwatcher : BirdwatcherConfig := {}
  gobgp : GobgpConfig := {}
  bioris : BiorisConfig := {}
  inst : Option SourceInstance := none
deriving DecidableEq, Repr

/-- Modelled from the spec: TrimmedStringList (helper outside the provided
sources) splits a comma-separated value into trimmed entries, dropping
empties. -/
def TrimmedStringList (s : String) : List String :=
  ((goSplit ',' s).map goTrim).filter (fun t => t != "")

/-- Translation of SourceConfig.getInstance (config.go): return the cached
instance when present, otherwise dispatch on the backend type, store the
result in the cache slot and return it; an unknown type stores and returns
the nil instance. The returned pair carries the updated descriptor, which
models the in-place mutation of the cache slot. -/
def SourceConfig.getInstance (self : SourceConfig) :
    Option SourceInstance × SourceConfig :=
  match self.inst with
  | some i => (some i, self)
  | none =>
    let built : Option SourceInstance :=
      match self.type with
      | .birdwatcherBackend => some (.birdwatcherSrc (NewBirdwatcher self.birdwatcher))
      | .gobgpBackend => some (.gobgpSrc (NewGoBGP self.gobgp))
      | .biorisBackend => some (.biorisSrc (NewBioRIS self.bioris))
      | .unknownBackend => none
    (built, { self with inst := built })

/-- Outcome of getSources (config.go): the Go function returns the partial
descriptor list together with an error, and the birdwatcher branch can exit
the process through log.Fatal, modelled as the fatal constructor. -/
inductive SourcesOutcome
  | ok (srcs : List SourceConfig)
  | err (partialSrcs : List SourceConfig) (e : String)
  | fatal (e : String)
deriving DecidableEq, Repr

/-- Prepend an accepted descriptor onto the outcome of the rest of the
scan, keeping the partial list of an error. -/
def consSource (d : SourceConfig) : SourcesOutcome → SourcesOutcome
  | .ok l => .ok (d :: l)
  | .err p e => .err (d :: p) e
  | .fatal e => .fatal e

/-- Base descriptor assembled by getSources (config.go) before the backend
dispatch: id from the name minus its seven leading bytes, display name,
group and blackhole list from the section keys. -/
def mkBaseSource (sec : IniSection) (order : Nat) (bt : BackendType) : SourceConfig :=
  { id := goDropBytes 7 sec.name
    order := order
    name := mustString sec "name" "Unknown Source"
    group := mustString sec "group" ""
    blackholes := TrimmedStringList (mustString sec "blackholes" "")
    type := bt }

/-- Translation of the scan loop of getSources (config.go) over the
candidate sections in file order: skip sections that are not a source base,
fail on zero or several child sections or an unsupported backend, exit
fatally on a birdwatcher backend with an unknown type key, and otherwise
append the descriptor and increment the order counter. -/
def getSourcesAux (cfg : IniFile) : List IniSection → Nat → SourcesOutcome
  | [], _ => .ok []
  | sec :: rest, order =>
    if isSourceBase sec then
      match childSectionsNamed cfg sec.name with
      | [] => .err [] (sec.name ++ " has no backend configuration")
      | [backendConfig] =>
        match getBackendType backendConfig with
        | .unknownBackend => .err [] (sec.name ++ " has an unsupported backend")
        | .birdwatcherBackend =>
          let sourceType := mustString backendConfig "type" ""
          let ptp := mustString backendConfig "peer_table_prefix" "T"
          let ppp := mustString backendConfig "pipe_protocol_prefix" "M"
          if sourceType ≠ "single_table" ∧ sourceType ≠ "multi_table" then
            .fatal ("Configuration error (birdwatcher source) unknown birdwatcher type:"
              ++ sourceType)
          else
            let base := mkBaseSource sec order .birdwatcherBackend
            let c := birdwatcherMapTo backendConfig
              { id := base.id, name := base.name,
                timezone := "UTC",
                serverTime := "2006-01-02T15:04:05.999999999Z07:00",
                serverTimeShort := "2006-01-02",
                serverTimeExt := "Mon, 02 Jan 2006 15:04:05 -0700",
                type := sourceType,
                peerTablePfx := ptp,
                pipeProtocolPfx := ppp }
            consSource { base with birdwatcher := c } (getSourcesAux cfg rest (order + 1))
        | .gobgpBackend =>
          let base := mkBaseSource sec order .gobgpBackend
          let c := gobgpMapTo backendConfig { id := base.id, name := base.name }
          consSource { base with gobgp := c } (getSourcesAux cfg rest (order + 1))
        | .biorisBackend =>
          let base := mkBaseSource sec order .biorisBackend
          let c := biorisMapTo backendConfig { id := base.id, name := base.name }
          consSource { base with bioris := c } (getSourcesAux cfg rest (order + 1))
      | _ :: _ :: _ => .err [] (sec.name ++ " has ambigous backends")
    else getSourcesAux cfg rest order

/-- Translation of getSources (config.go): scan the child sections of the
source section in file order with the order counter starting at zero. -/
def getSources (cfg : IniFile) : SourcesOutcome :=
  getSourcesAux cfg (childSectionsNamed cfg "source") 0

/-- Translation of Config (config.go). -/
structure Config where
  server : ServerConfig
  housekeeping : HousekeepingConfig
  ui : UiConfig
  sources : List SourceConfig
  file : String

/-- Outcome of loadConfig: a configuration, a returned error, or a process
exit through log.Fatal inside getSources. -/
inductive LoadOutcome
  | ok (c : Config)
  | err (e : String)
  | fatal (e : String)

/-- Translation of loadConfig (config.go) from the parsed tree on: the file
resolution and the ini parse are external; the section mapping, the source
scan and the ui derivation are sequenced as in the source and the first
failure aborts the whole load, discarding any partial descriptor list. -/
def loadConfigFromParsed (file : String) (cfg : IniFile) : LoadOutcome :=
  let server := getServerConfig cfg
  let housekeeping := getHousekeepingConfig cfg
  match getSources cfg with
  | .err _ e => .err e
  | .fatal e => .fatal e
  | .ok sources =>
    match getUiConfig cfg with
    | .error e => .err e
    | .ok ui =>
      .ok { server := server, housekeeping := housekeeping, ui := ui,
            sources := sources, file := file }

/-- Translation of Config.SourceById (config.go). -/
def Config.SourceById (self : Config) (sourceId : String) : Option SourceConfig :=
  self.sources.find? (fun sc => sc.id == sourceId)

/-- Translation of Config.SourceInstanceById (config.go): resolve the
descriptor and obtain, constructing and caching if absent, its instance;
the updated descriptor list models the in-place pointer mutation. -/
def Config.SourceInstanceById (self : Config) (sourceId : String) :
    Option SourceInstance × Config :=
  match self.SourceById sourceId with
  | none => (none, self)
  | some sc =>
    let r := sc.getInstance
    let updated := self.sources.map (fun x => if x.id == sourceId then r.2 else x)
    (r.1, { self with sources := updated })

/-- Translation of the apiVersion constant (source.go). -/
def apiVersion : String := "v0.1.0"

/-- Translation of the ApiStatus envelope (api package), with wall-clock
times in epoch seconds supplied by the caller. -/
structure ApiStatus where
  version : String
  resultFromCache : Bool
  ttl : Int
deriving DecidableEq, Repr

/-- Translation of getDefaultApiStatus (source.go): fabricated version and
cache fields, ttl sixty seconds from now. -/
def getDefaultApiStatus (now : Int) : ApiStatus :=
  { version := apiVersion, resultFromCache := false, ttl := now + 60 }

/-- External bio-rd session status enumeration, modelled from the spec
examples; its String rendering yields the literal enum constant name. -/
inductive BioNeighborStatus
  | unknownStatus
  | idle
  | connect
  | active
  | openSent
  | openConfirm
  | established
deriving DecidableEq, Repr

/-- String rendering of the remote status enumeration. -/
def bioStatusString : BioNeighborStatus → String
  | .unknownStatus => "Unknown"
  | .idle => "Idle"
  | .connect => "Connect"
  | .active => "Active"
  | .openSent => "OpenSent"
  | .openConfirm => "OpenConfirm"
  | .established => "Established"

/-- One remote neighbour record of the GetNeighbors reply; the address is
kept in its rendered form (the bnet IP rendering is external). -/
structure BioNeighbor where
  status : BioNeighborStatus
  establishedSince : Nat
  neighborAddress : String
  peerAsn : Nat
  description : String
  routesReceived : Nat
  routesExported : Nat
deriving DecidableEq, Repr

/-- Translation of the api.Neighbour record (api package), with the uptime
duration counted in seconds. -/
structure ApiNeighbour where
  id : String
  address : String
  asn : Int
  state : String
  description : String
  routesReceived : Int
  routesFiltered : Int
  routesExported : Int
  routesPreferred : Int
  routesAccepted : Int
  uptime : Int
  lastError : String
  routeServerId : String
deriving DecidableEq, Repr

/-- Translation of the loop body of BioRIS.Neighbours (source.go): the
Established state maps to up and every other state passes through its
rendering; uptime is now minus the established-since epoch seconds when
that value is positive and zero otherwise; the filtered, preferred and
accepted counters are always zero. -/
def translateNeighbour (config : BiorisConfig) (now : Int) (n : BioNeighbor) :
    ApiNeighbour :=
  let state0 := bioStatusString n.status
  let state := if state0 = "Established" then "up" else state0
  let uptime : Int :=
    if n.establishedSince > 0 then now - (n.establishedSince : Int) else 0
  { id := n.neighborAddress
    address := n.neighborAddress
    asn := (n.peerAsn : Int)
    state := state
    description := n.description
    routesReceived := (n.routesReceived : Int)
    routesFiltered := 0
    routesExported := (n.routesExported : Int)
    routesPreferred := 0
    routesAccepted := 0
    uptime := uptime
    lastError := ""
    routeServerId := config.id }

/-- Translation of the NeighboursResponse envelope. -/
structure NeighboursResponse where
  api : ApiStatus
  neighbours : List ApiNeighbour
deriving DecidableEq, Repr

/-- Translation of BioRIS.Neighbours (source.go): client acquisition and
the remote GetNeighbors call are external and passed as an Except-valued
call model; each remote record is translated by translateNeighbour. -/
def biorisNeighbours (br : BioRIS) (now : Int)
    (client : Except String (String → Except String (List BioNeighbor))) :
    Except String NeighboursResponse :=
  match client with
  | .error e => .error ("Could not get RIS client: " ++ e)
  | .ok getNeighbors =>
    match getNeighbors br.config.router with
    | .error e => .error ("Could not get neighbors: " ++ e)
    | .ok ns =>
      .ok { api := getDefaultApiStatus now
            neighbours := ns.map (translateNeighbour br.config now) }

/-- The two address families iterated by getRoutes (source.go), in their
fixed order. -/
inductive Afisafi
  | ipv4Unicast
  | ipv6Unicast
deriving DecidableEq, Repr

/-- External bio-rd path type tag; getRoutes keeps only BGP-tagged paths. -/
inductive RisPathType
  | bgpSourced
  | staticSourced
deriving DecidableEq, Repr

/-- One AS path segment of a remote BGP path. -/
structure ASPathSegment where
  asns : List Nat
deriving DecidableEq, Repr

/-- The remote BGP path attributes consumed by makeAliceRoute. -/
structure BGPPath where
  asPath : List ASPathSegment
  nextHop : String
  med : Nat
  localPref : Nat
deriving DecidableEq, Repr

/-- One path attached to a streamed route record. -/
structure RisPath where
  type : RisPathType
  bgpPath : BGPPath
deriving DecidableEq, Repr

/-- One streamed route record: the rendered prefix and its paths. -/
structure RisRoute where
  pfx : String
  paths : List RisPath
deriving DecidableEq, Repr

/-- Termination of a DumpRIB stream: clean end of stream or an error. -/
inductive StreamEnd
  | eof
  | errEnd (e : String)
deriving DecidableEq, Repr

/-- Result of opening one DumpRIB stream: either the call itself fails or
the stream delivers its records and then terminates. -/
inductive DumpOutcome
  | callError (e : String)
  | stream (msgs : List RisRoute) (fin : StreamEnd)
deriving DecidableEq, Repr

/-- The remote DumpRIB call model: router, vrf id, address family and
neighbour filter select the stream. -/
abbrev RISClient := String → Nat → Afisafi → String → DumpOutcome

/-- Translation of the BgpInfo part of api.Route (api package). -/
structure BgpInfo where
  asPath : List Int
  nextHop : String
  med : Int
  localPref : Int
deriving DecidableEq, Repr

/-- Translation of api.Route (api package). -/
structure ApiRoute where
  id : String
  network : String
  bgp : BgpInfo
deriving DecidableEq, Repr

/-- Translation of makeAliceRoute (source.go). The source indexes the first
AS path segment without an emptiness guard; the out-of-range index, a
runtime panic in Go, is modelled as none. -/
def makeAliceRoute (pfx : String) (bgpPath : BGPPath) : Option ApiRoute :=
  match bgpPath.asPath with
  | [] => none
  | seg :: _ =>
    some { id := pfx, network := pfx,
           bgp := { asPath := seg.asns.map (fun a => (a : Int)),
                    nextHop := bgpPath.nextHop,
                    med := (bgpPath.med : Int),
                    localPref := (bgpPath.localPref : Int) } }

/-- Path loop of getRoutes (source.go) for one streamed record: keep the
BGP-tagged paths, translating each; none propagates the panic. -/
def translateRoutePaths (pfx : String) : List RisPath → Option (List ApiRoute)
  | [] => some []
  | p :: rest =>
    if p.type = RisPathType.bgpSourced then
      match makeAliceRoute pfx p.bgpPath with
      | none => none
      | some r => (translateRoutePaths pfx rest).map (fun l => r :: l)
    else translateRoutePaths pfx rest

/-- Record loop of getRoutes (source.go) over the delivered stream records
in stream order. -/
def consumeStream : List RisRoute → Option (List ApiRoute)
  | [] => some []
  | r :: rest =>
    match translateRoutePaths r.pfx r.paths with
    | none => none
    | some rs => (consumeStream rest).map (fun l => rs ++ l)

/-- Translation of the RoutesResponse envelope; the three route category
lists distinguish the Go nil slice (none) from an allocated empty slice
(some with the empty list). -/
structure RoutesResponse where
  api : ApiStatus
  imported : Option (List ApiRoute)
  filtered : Option (List ApiRoute)
  notExported : Option (List ApiRoute)
deriving DecidableEq, Repr

/-- Outcome of getRoutes: a response, a returned wrapped error, or the
runtime panic of makeAliceRoute. -/
inductive RoutesOutcome
  | ok (resp : RoutesResponse)
  | err (e : String)
  | panics
deriving DecidableEq, Repr

/-- Family loop of getRoutes (source.go): for each address family in order,
open the stream, abort with a wrapped error when the call fails, consume
the records, abort on a stream error other than the clean end of stream,
and accumulate across families in arrival order. -/
def getRoutesAux (dump : Afisafi → DumpOutcome) :
    List Afisafi → List ApiRoute → Int → RoutesOutcome
  | [], acc, now =>
    .ok { api := { version := apiVersion, resultFromCache := false, ttl := now },
          imported := some acc, filtered := none, notExported := none }
  | afi :: rest, acc, now =>
    match dump afi with
    | .callError e => .err ("Could not dump RIB: " ++ e)
    | .stream msgs fin =>
      match consumeStream msgs with
      | none => .panics
      | some rs =>
        match fin with
        | .eof => getRoutesAux dump rest (acc ++ rs) now
        | .errEnd e => .err ("Receive failed: " ++ e)

/-- Translation of getRoutes (source.go): client acquisition is modelled as
an Except-valued parameter (the dial and the connection state machine are
external input and output), then the fixed family pair is iterated. -/
def biorisGetRoutes (br : BioRIS) (now : Int) (client : Except String RISClient)
    (neighbor : String) : RoutesOutcome :=
  match client with
  | .error e => .err ("Could not get RIB client: " ++ e)
  | .ok risclient =>
    getRoutesAux (fun afi => risclient br.config.router br.config.vrfid afi neighbor)
      [Afisafi.ipv4Unicast, Afisafi.ipv6Unicast] [] now

/-- Translation of BioRIS.Routes (source.go). -/
def biorisRoutes (br : BioRIS) (now : Int) (client : Except String RISClient)
    (neighbourId : String) : RoutesOutcome :=
  biorisGetRoutes br now client neighbourId

/-- Translation of BioRIS.RoutesReceived (source.go). -/
def biorisRoutesReceived (br : BioRIS) (now : Int) (client : Except String RISClient)
    (neighbourId : String) : RoutesOutcome :=
  biorisGetRoutes br now client neighbourId

/-- Translation of BioRIS.AllRoutes (source.go): an empty neighbour filter. -/
def biorisAllRoutes (br : BioRIS) (now : Int) (client : Except String RISClient) :
    RoutesOutcome :=
  biorisGetRoutes br now client ""

/-- Translation of BioRIS.RoutesFiltered (source.go): no remote call is
performed; the reply carries an allocated empty Filtered list, nil Imported
and NotExported lists, and no error. -/
def biorisRoutesFiltered (now : Int) (_neighbourId : String) :
    Except String RoutesResponse :=
  .ok { api := getDefaultApiStatus now
        imported := none
        filtered := some []
        notExported := none }

/-- Translation of BioRIS.RoutesNotExported (source.go): no remote call is
performed; the reply carries an allocated empty NotExported list, nil
Imported and Filtered lists, and no error. -/
def biorisRoutesNotExported (now : Int) (_neighbourId : String) :
    Except String RoutesResponse :=
  .ok { api := getDefaultApiStatus now
        imported := none
        filtered := none
        notExported := some [] }

/-- Translation of BioRIS.ExpireCaches (source.go). -/
def biorisExpireCaches (_br : BioRIS) : Int := 0

/-- Specification-side total translation of one stream: the BGP-tagged
paths of each record, in record then path order, used to state the
accumulation contract of getRoutes. -/
def bgpRoutesOf (msgs : List RisRoute) : List ApiRoute :=
  (msgs.map (fun r => r.paths.filterMap (fun p =>
    if p.type = RisPathType.bgpSourced then makeAliceRoute r.pfx p.bgpPath
    else none))).flatten

/-- Absence of the unguarded-index panic in a stream: every BGP-tagged path
carries at least one AS path segment. -/
def noEmptyAsPath (msgs : List RisRoute) : Prop :=
  ∀ r ∈ msgs, ∀ p ∈ r.paths, p.type = RisPathType.bgpSourced → p.bgpPath.asPath ≠ []

/-- Specification-side description of the last assignment a raw body makes
to a given community key, scanning the split lines from the end. -/
def lastCommunityDef (k : String) : List String → Option String
  | [] => none
  | line :: rest =>
    match lastCommunityDef k rest with
    | some v => some v
    | none =>
      match goSplitN '=' 2 line with
      | [a, b] => if goTrim a = k then some (goTrim b) else none
      | _ => none

/-- The type key of a birdwatcher child section holds one of the two
accepted birdwatcher modes (the condition guarding log.Fatal in
getSources). -/
def birdwatcherTypeOkB (sec : IniSection) : Bool :=
  mustString sec "type" "" == "single_table" || mustString sec "type" "" == "multi_table"

/-- A base source section that getSources accepts: exactly one child
section, of a recognized backend type, and, when the child is a birdwatcher
backend, an accepted birdwatcher mode. -/
def goodSourceB (cfg : IniFile) (sec : IniSection) : Bool :=
  match childSectionsNamed cfg sec.name with
  | [c] =>
    match getBackendType c with
    | .unknownBackend => false
    | .birdwatcherBackend => birdwatcherTypeOkB c
    | _ => true
  | _ => false

/-- The returned getSources error names an offending base source section
together with its defect: no child section, several child sections, or an
unsupported single backend. -/
def offendsWith (cfg : IniFile) (sec : IniSection) (e : String) : Prop :=
  (childSectionsNamed cfg sec.name = []
    ∧ e = sec.name ++ " has no backend configuration")
  ∨ (1 < (childSectionsNamed cfg sec.name).length
    ∧ e = sec.name ++ " has ambigous backends")
  ∨ (∃ c, childSectionsNamed cfg sec.name = [c]
    ∧ getBackendType c = BackendType.unknownBackend
    ∧ e = sec.name ++ " has an unsupported backend")

/-- A top-level section accepted by the source scan of getSources: returned
by the child lookup of the source section and a source base. -/
def acceptedSourceSection (cfg : IniFile) (sec : IniSection) : Prop :=
  sec ∈ childSectionsNamed cfg "source" ∧ isSourceBase sec = true

/-- The descriptor ids of a successful scan outcome, none on a failed one:
a binder-free view of the getSources result. -/
def sourcesOutcomeIds : SourcesOutcome → Option (List String)
  | .ok l => some (l.map (fun sc => sc.id))
  | _ => none

/-- C2: with no invalid key configured and local ASN 65000 the derived rpki
triplets take their defaults, the invalid one being 65000,1000,4,*; with
invalid = 65000:1000:5-9 configured the derived invalid triplet is
65000,1000,5,9; and with invalid = 65000:1000 (only two colon tokens) the
derivation fails with a configuration error. -/
theorem rpki_invalid_triplet_derivation :
    getRpkiConfig [⟨"server", [("asn", "65000")], ""⟩]
      = .ok { enabled := false, valid := ["65000", "1000", "1"],
              unknown := ["65000", "1000", "2"],
              notChecked := ["65000", "1000", "3"],
              invalid := ["65000", "1000", "4", "*"] }
    ∧ getRpkiConfig [⟨"server", [("asn", "65000")], ""⟩,
        ⟨"rpki", [("invalid", "65000:1000:5-9")], ""⟩]
      = .ok { enabled := false, valid := ["65000", "1000", "1"],
              unknown := ["65000", "1000", "2"],
              notChecked := ["65000", "1000", "3"],
              invalid := ["65000", "1000", "5", "9"] }
    ∧ getRpkiConfig [⟨"server", [("asn", "65000")], ""⟩,
        ⟨"rpki", [("invalid", "65000:1000")], ""⟩]
      = .error "Unexpected rpki.Invalid configuration: [65000 1000]" :=
  ⟨rfl, rfl, rfl⟩

/-- C8: for every wall-clock instant and every neighbour id, RoutesFiltered
and RoutesNotExported of the BioRIS adapter return no error and a response
whose respective category list is an allocated empty list, the other
category lists nil; neither function takes the remote client, so no remote
communication is involved. -/
theorem bioris_empty_filtered_notexported (now : Int) (neighbourId : String) :
    biorisRoutesFiltered now neighbourId
      = .ok { api := getDefaultApiStatus now, imported := none,
              filtered := some [], notExported := none }
    ∧ biorisRoutesNotExported now neighbourId
      = .ok { api := getDefaultApiStatus now, imported := none,
              filtered := none, notExported := some [] } :=
  ⟨rfl, rfl⟩

/-- C6: the neighbour translation of the BioRIS adapter maps the normalized
state to the literal up exactly when the remote status is Established, and
passes the remote rendering through unchanged otherwise; uptime is now
minus the established-since epoch seconds when that value is positive and
zero otherwise; and the filtered, preferred and accepted counters are
always zero. -/
theorem bioris_neighbour_translation (config : BiorisConfig) (now : Int)
    (n : BioNeighbor) :
    ((translateNeighbour config now n).state = "up"
      ↔ n.status = BioNeighborStatus.established)
    ∧ (translateNeighbour config now n).state
        = (if bioStatusString n.status = "Established" then "up"
           else bioStatusString n.status)
    ∧ (translateNeighbour config now n).uptime
        = (if n.establishedSince > 0 then now - (n.establishedSince : Int) else 0)
    ∧ (translateNeighbour config now n).routesFiltered = 0
    ∧ (translateNeighbour config now n).routesPreferred = 0
    ∧ (translateNeighbour config now n).routesAccepted = 0 := by
  obtain ⟨status, es, addr, asn, desc, rr, re⟩ := n
  cases status <;> simp [translateNeighbour, bioStatusString]

/-- C9: registry caching of getInstance: a descriptor with a cached
instance returns it unchanged without entering construction, a second call
returns exactly the instance and descriptor state of the first call, and a
first call on an uncached descriptor stores the instance it returns, so the
backend instance is constructed at most once and never invalidated. -/
theorem getInstance_cached_once (sc : SourceConfig) :
    (∀ i, sc.inst = some i → sc.getInstance = (some i, sc))
    ∧ SourceConfig.getInstance (sc.getInstance).2 = ((sc.getInstance).1, (sc.getInstance).2)
    ∧ (sc.inst = none → (sc.getInstance).2.inst = (sc.getInstance).1) := by
  obtain ⟨id, order, name, group, bh, ty, bw, gg, bi, inst0⟩ := sc
  refine ⟨?_, ?_, ?_⟩
  · intro i h
    cases inst0 <;> simp_all [SourceConfig.getInstance]
  · cases inst0 <;> cases ty <;> simp [SourceConfig.getInstance]
  · intro h
    cases inst0 <;> cases ty <;> simp_all [SourceConfig.getInstance]

/-- Concrete instantiation of the getInstance caching theorem on a bioris
descriptor with an empty cache slot. -/
theorem getInstance_cached_once_witness :
    (let sc : SourceConfig :=
      { id := "rs1", order := 0, name := "RS 1", group := "",
        blackholes := [], type := BackendType.biorisBackend };
     sc.inst = none
     ∧ SourceConfig.getInstance sc.getInstance.2 = (sc.getInstance.1, sc.getInstance.2)
     ∧ sc.getInstance.2.inst = sc.getInstance.1) :=
  ⟨rfl, (getInstance_cached_once _).2.1, (getInstance_cached_once _).2.2 rfl⟩

/-- Lookup characterization of the line fold of parseAndMergeCommunities:
the merged set answers the last assignment of the key among the lines and
falls back to the starting set when no line assigns it. -/
theorem mergeLines_lookup (lines : List String) :
    ∀ (cs : BgpCommunities) (k : String),
      (lines.foldl (fun cs line =>
        match goSplitN '=' 2 line with
        | [a, b] => cs.set (goTrim a) (goTrim b)
        | _ => cs) cs) k
      = (match lastCommunityDef k lines with
         | some v => some v
         | none => cs k) := by
  induction lines with
  | nil => intro cs k; rfl
  | cons line rest ih =>
    intro cs k
    rw [List.foldl_cons, ih]
    cases h : lastCommunityDef k rest with
    | some v => simp [lastCommunityDef, h]
    | none =>
      simp only [lastCommunityDef, h]
      cases hl : goSplitN '=' 2 line with
      | nil => simp
      | cons a t =>
        cases t with
        | nil => simp
        | cons b t2 =>
          cases t2 with
          | cons c t3 => simp
          | nil =>
            by_cases hk : goTrim a = k
            · subst hk; simp [BgpCommunities.set]
            · have hk2 : ¬(k = goTrim a) := fun h2 => hk (Eq.symm h2)
              simp only [BgpCommunities.set, if_neg hk, if_neg hk2]

/-- C4: community merge. For every starting set, every raw body and every
key, the merged lookup answers the trimmed label of the last body line
assigning the trimmed key and falls back to the starting set otherwise, so
a line without an equals sign is skipped without affecting any key and no
pre-existing key is ever removed; concretely, merging a body that overrides
the blackhole default and adds one new key onto the well-known defaults
yields exactly the defaults plus the new key with the overridden label
replaced. -/
theorem community_merge_semantics :
    (∀ (cs : BgpCommunities) (body : String) (k : String),
      parseAndMergeCommunities cs body k
        = (match lastCommunityDef k (goSplit '\n' body) with
           | some v => some v
           | none => cs k))
    ∧ (∀ k : String,
        getBgpCommunities [⟨"bgp_communities", [],
            "65535:666 = my blackhole\n65000:2000:1 = new reason"⟩] k
          = if k = "65535:666" then some "my blackhole"
            else if k = "65000:2000:1" then some "new reason"
            else MakeWellKnownBgpCommunities k) := by
  refine ⟨fun cs body k => mergeLines_lookup (goSplit '\n' body) cs k, ?_⟩
  intro k
  by_cases h1 : k = "65535:666"
  · subst h1; decide
  · by_cases h2 : k = "65000:2000:1"
    · subst h2; decide
    · show ((MakeWellKnownBgpCommunities.set "65535:666" "my blackhole").set
        "65000:2000:1" "new reason") k = _
      simp only [BgpCommunities.set, if_neg h2, if_neg h1, MakeWellKnownBgpCommunities]

/-- Total evaluation of the path loop under the no-empty-AS-path guard: it
returns exactly the BGP-tagged translations in path order. -/
theorem translateRoutePaths_eq (pfx : String) (paths : List RisPath)
    (h : ∀ p ∈ paths, p.type = RisPathType.bgpSourced → p.bgpPath.asPath ≠ []) :
    translateRoutePaths pfx paths
      = some (paths.filterMap (fun p =>
          if p.type = RisPathType.bgpSourced then makeAliceRoute pfx p.bgpPath
          else none)) := by
  induction paths with
  | nil => rfl
  | cons p rest ih =>
    have hrest : ∀ q ∈ rest, q.type = RisPathType.bgpSourced → q.bgpPath.asPath ≠ [] :=
      fun q hq hty => h q (List.mem_cons_of_mem _ hq) hty
    by_cases hp : p.type = RisPathType.bgpSourced
    · have hne := h p (List.mem_cons_self _ _) hp
      cases hap : p.bgpPath.asPath with
      | nil => exact absurd hap hne
      | cons s t =>
        simp only [translateRoutePaths, if_pos hp, List.filterMap_cons, makeAliceRoute,
          hap, ih hrest]
        rfl
    · simp only [translateRoutePaths, if_neg hp, List.filterMap_cons, ih hrest]

/-- Total evaluation of the record loop under the no-empty-AS-path guard. -/
theorem consumeStream_eq (msgs : List RisRoute) (h : noEmptyAsPath msgs) :
    consumeStream msgs = some (bgpRoutesOf msgs) := by
  induction msgs with
  | nil => rfl
  | cons r rest ih =>
    have hr := translateRoutePaths_eq r.pfx r.paths (h r (List.mem_cons_self _ _))
    have hrest : noEmptyAsPath rest := fun q hq => h q (List.mem_cons_of_mem _ hq)
    simp only [consumeStream, hr, bgpRoutesOf, List.map_cons, List.flatten_cons,
      ih hrest]
    rfl

/-- The family loop cannot reach the panic outcome when every delivered
stream satisfies the no-empty-AS-path guard. -/
theorem getRoutesAux_no_panic (dump : Afisafi → DumpOutcome) (afis : List Afisafi)
    (h : ∀ afi msgs fin, dump afi = DumpOutcome.stream msgs fin → noEmptyAsPath msgs) :
    ∀ (acc : List ApiRoute) (now : Int),
      getRoutesAux dump afis acc now ≠ RoutesOutcome.panics := by
  induction afis with
  | nil => intro acc now; simp [getRoutesAux]
  | cons afi rest ih =>
    intro acc now
    cases hd : dump afi with
    | callError e => simp [getRoutesAux, hd]
    | stream msgs fin =>
      have hc := consumeStream_eq msgs (h afi msgs fin hd)
      cases fin with
      | eof => simp only [getRoutesAux, hd, hc]; exact ih _ _
      | errEnd e => simp [getRoutesAux, hd, hc]

/-- C7: route retrieval accumulates all IPv4-unicast stream results before
all IPv6-unicast results, preserving the order of each stream with no sorting or
de-duplication; a path of a received route is kept exactly when it is
BGP-tagged; a clean end of stream is success; and a failed client
acquisition, a failed call or a stream error aborts the whole retrieval
with a wrapped error and no partial result for pending families. -/
theorem bioris_route_retrieval (br : BioRIS) (now : Int) (dump : RISClient)
    (neighbor : String) (m4 m6 : List RisRoute) (e : String) :
    ((dump br.config.router br.config.vrfid Afisafi.ipv4Unicast neighbor
        = DumpOutcome.stream m4 StreamEnd.eof) →
     (dump br.config.router br.config.vrfid Afisafi.ipv6Unicast neighbor
        = DumpOutcome.stream m6 StreamEnd.eof) →
     noEmptyAsPath m4 → noEmptyAsPath m6 →
     biorisGetRoutes br now (.ok dump) neighbor
       = RoutesOutcome.ok
           { api := { version := apiVersion, resultFromCache := false, ttl := now },
             imported := some (bgpRoutesOf m4 ++ bgpRoutesOf m6),
             filtered := none, notExported := none })
    ∧ ((dump br.config.router br.config.vrfid Afisafi.ipv4Unicast neighbor
        = DumpOutcome.callError e) →
       biorisGetRoutes br now (.ok dump) neighbor
         = RoutesOutcome.err ("Could not dump RIB: " ++ e))
    ∧ ((dump br.config.router br.config.vrfid Afisafi.ipv4Unicast neighbor
        = DumpOutcome.stream m4 (StreamEnd.errEnd e)) →
       noEmptyAsPath m4 →
       biorisGetRoutes br now (.ok dump) neighbor
         = RoutesOutcome.err ("Receive failed: " ++ e))
    ∧ ((dump br.config.router br.config.vrfid Afisafi.ipv4Unicast neighbor
        = DumpOutcome.stream m4 StreamEnd.eof) →
       noEmptyAsPath m4 →
       (dump br.config.router br.config.vrfid Afisafi.ipv6Unicast neighbor
        = DumpOutcome.callError e) →
       biorisGetRoutes br now (.ok dump) neighbor
         = RoutesOutcome.err ("Could not dump RIB: " ++ e))
    ∧ ((dump br.config.router br.config.vrfid Afisafi.ipv4Unicast neighbor
        = DumpOutcome.stream m4 StreamEnd.eof) →
       noEmptyAsPath m4 →
       (dump br.config.router br.config.vrfid Afisafi.ipv6Unicast neighbor
        = DumpOutcome.stream m6 (StreamEnd.errEnd e)) →
       noEmptyAsPath m6 →
       biorisGetRoutes br now (.ok dump) neighbor
         = RoutesOutcome.err ("Receive failed: " ++ e))
    ∧ biorisGetRoutes br now (.error e) neighbor
        = RoutesOutcome.err ("Could not get RIB client: " ++ e) := by
  refine ⟨?_, ?_, ?_, ?_, ?_, rfl⟩
  · intro h4 h6 hp4 hp6
    simp only [biorisGetRoutes, getRoutesAux, h4, h6,
      consumeStream_eq m4 hp4, consumeStream_eq m6 hp6]
    simp
  · intro h4
    simp only [biorisGetRoutes, getRoutesAux, h4]
  · intro h4 hp4
    simp only [biorisGetRoutes, getRoutesAux, h4, consumeStream_eq m4 hp4]
  · intro h4 hp4 h6
    simp only [biorisGetRoutes, getRoutesAux, h4, consumeStream_eq m4 hp4, h6]
  · intro h4 hp4 h6 hp6
    simp only [biorisGetRoutes, getRoutesAux, h4, consumeStream_eq m4 hp4, h6,
      consumeStream_eq m6 hp6]

/-- Concrete instantiation of the route retrieval theorem: one route per
family accumulated in family order, and an aborting call error. -/
theorem bioris_route_retrieval_witness :
    (biorisGetRoutes (NewBioRIS ⟨"rs1", "RS 1", "h:1", "r1", 0⟩) 0
      (.ok (fun _ _ afi _ =>
        match afi with
        | Afisafi.ipv4Unicast =>
          DumpOutcome.stream
            [⟨"10.0.0.0/8", [⟨RisPathType.bgpSourced, ⟨[⟨[65001]⟩], "192.0.2.1", 0, 100⟩⟩]⟩]
            StreamEnd.eof
        | Afisafi.ipv6Unicast =>
          DumpOutcome.stream
            [⟨"2001:db8::/32", [⟨RisPathType.bgpSourced, ⟨[⟨[65002]⟩], "2001:db8::1", 0, 100⟩⟩]⟩]
            StreamEnd.eof)) ""
      = RoutesOutcome.ok
          { api := { version := apiVersion, resultFromCache := false, ttl := 0 },
            imported := some
              (bgpRoutesOf
                  [⟨"10.0.0.0/8", [⟨RisPathType.bgpSourced, ⟨[⟨[65001]⟩], "192.0.2.1", 0, 100⟩⟩]⟩]
                ++ bgpRoutesOf
                  [⟨"2001:db8::/32", [⟨RisPathType.bgpSourced, ⟨[⟨[65002]⟩], "2001:db8::1", 0, 100⟩⟩]⟩]),
            filtered := none, notExported := none })
    ∧ biorisGetRoutes (NewBioRIS ⟨"rs1", "RS 1", "h:1", "r1", 0⟩) 0
        (.ok (fun _ _ _ _ => DumpOutcome.callError "boom")) ""
        = RoutesOutcome.err ("Could not dump RIB: " ++ "boom") :=
  ⟨(bioris_route_retrieval _ 0 _ "" _ _ "x").1 rfl rfl
      (by unfold noEmptyAsPath; decide) (by unfold noEmptyAsPath; decide),
   (bioris_route_retrieval _ 0 _ "" [] [] "boom").2.1 rfl⟩

/-- C10: makeAliceRoute indexes the first AS path segment with no
emptiness guard, so its error branch is reachable: a streamed BGP-tagged
path with an empty segment list drives the whole retrieval into the panic
outcome (a runtime panic in the Go source), while retrieval never panics
when every streamed BGP path carries at least one AS path segment — the
unstated precondition of route retrieval. -/
theorem aspath_index_panic :
    makeAliceRoute "10.0.0.0/8" ⟨[], "192.0.2.1", 0, 100⟩ = none
    ∧ biorisGetRoutes (NewBioRIS ⟨"rs1", "RS 1", "h:1", "r1", 0⟩) 0
        (.ok (fun _ _ _ _ =>
          DumpOutcome.stream
            [⟨"10.0.0.0/8", [⟨RisPathType.bgpSourced, ⟨[], "192.0.2.1", 0, 100⟩⟩]⟩]
            StreamEnd.eof)) ""
        = RoutesOutcome.panics
    ∧ (∀ (br : BioRIS) (now : Int) (dump : RISClient) (neighbor : String),
        (∀ afi msgs fin,
          dump br.config.router br.config.vrfid afi neighbor
            = DumpOutcome.stream msgs fin → noEmptyAsPath msgs) →
        biorisGetRoutes br now (.ok dump) neighbor ≠ RoutesOutcome.panics) := by
  refine ⟨rfl, rfl, ?_⟩
  intro br now dump neighbor h
  exact getRoutesAux_no_panic _ _ (fun afi msgs fin hd => h afi msgs fin hd) _ _

/-- Concrete instantiation of the totality part of the AS path panic
theorem: a retrieval whose streams carry nonempty AS paths does not reach
the panic outcome. -/
theorem aspath_index_panic_witness :
    biorisGetRoutes (NewBioRIS ⟨"rs1", "RS 1", "h:1", "r1", 0⟩) 0
      (.ok (fun _ _ _ _ =>
        DumpOutcome.stream
          [⟨"10.0.0.0/8", [⟨RisPathType.bgpSourced, ⟨[⟨[65001]⟩], "192.0.2.1", 0, 100⟩⟩]⟩]
          StreamEnd.eof)) ""
      ≠ RoutesOutcome.panics :=
  aspath_index_panic.2.2 _ 0 _ "" (fun afi msgs fin hd => by
    cases hd
    unfold noEmptyAsPath
    decide)

/-- Scan soundness of getSources: a successful scan means every base source
among the candidates is good (one child of recognized type, birdwatcher
mode accepted), and the descriptors carry the names minus the seven-byte
head as ids and the consecutive order counters in scan order. -/
theorem getSourcesAux_ok_shape (cfg : IniFile) :
    ∀ (l : List IniSection) (ord : Nat) (res : List SourceConfig),
      getSourcesAux cfg l ord = SourcesOutcome.ok res →
      (∀ sec ∈ l, isSourceBase sec = true → goodSourceB cfg sec = true)
      ∧ res.map (fun sc => sc.id)
          = (l.filter (fun s => isSourceBase s)).map (fun s => goDropBytes 7 s.name)
      ∧ res.map (fun sc => sc.order)
          = List.range' ord (l.filter (fun s => isSourceBase s)).length := by
  intro l
  induction l with
  | nil =>
    intro ord res h
    simp only [getSourcesAux] at h
    injection h with h'
    subst h'
    simp
  | cons sec rest ih =>
    intro ord res h
    by_cases hb : isSourceBase sec = true
    case neg =>
      rw [getSourcesAux, if_neg hb] at h
      obtain ⟨g, hi, ho⟩ := ih ord res h
      refine ⟨?_, ?_, ?_⟩
      · intro s hs hbs
        rcases List.mem_cons.mp hs with rfl | hs'
        · exact absurd hbs hb
        · exact g s hs' hbs
      · simpa [List.filter_cons, hb] using hi
      · simpa [List.filter_cons, hb] using ho
    case pos =>
      rw [getSourcesAux, if_pos hb] at h
      cases hc : childSectionsNamed cfg sec.name with
      | nil => simp only [hc] at h; simp at h
      | cons c t =>
        cases t with
        | cons c2 t2 => simp only [hc] at h; simp at h
        | nil =>
          simp only [hc] at h
          have mainStep :
              ∀ (d : SourceConfig), d.id = goDropBytes 7 sec.name → d.order = ord →
              consSource d (getSourcesAux cfg rest (ord + 1)) = SourcesOutcome.ok res →
              goodSourceB cfg sec = true →
              (∀ s ∈ sec :: rest, isSourceBase s = true → goodSourceB cfg s = true)
              ∧ res.map (fun sc => sc.id)
                  = ((sec :: rest).filter (fun s => isSourceBase s)).map
                      (fun s => goDropBytes 7 s.name)
              ∧ res.map (fun sc => sc.order)
                  = List.range' ord
                      (((sec :: rest).filter (fun s => isSourceBase s)).length) := by
            intro d hdid hdord hcons hgood
            cases hr : getSourcesAux cfg rest (ord + 1) with
            | err p e => rw [hr] at hcons; simp [consSource] at hcons
            | fatal e => rw [hr] at hcons; simp [consSource] at hcons
            | ok res' =>
              rw [hr] at hcons
              simp only [consSource] at hcons
              injection hcons with h'
              subst h'
              obtain ⟨g, hi, ho⟩ := ih (ord + 1) res' hr
              refine ⟨?_, ?_, ?_⟩
              · intro s hs hbs
                rcases List.mem_cons.mp hs with rfl | hs'
                · exact hgood
                · exact g s hs' hbs
              · simp [List.filter_cons, hb, hdid, hi]
              · simp [List.filter_cons, hb, hdord, ho, List.range'_succ]
          cases hbt : getBackendType c with
          | unknownBackend => simp only [hbt] at h; simp at h
          | birdwatcherBackend =>
            simp only [hbt] at h
            by_cases hty : mustString c "type" "" ≠ "single_table"
                ∧ mustString c "type" "" ≠ "multi_table"
            · rw [if_pos hty] at h; simp at h
            · rw [if_neg hty] at h
              refine mainStep _ (by simp [mkBaseSource]) (by simp [mkBaseSource]) h ?_
              simp only [goodSourceB, hc, hbt]
              rcases not_and_or.mp hty with h1 | h2
              · simp [birdwatcherTypeOkB, not_not.mp h1]
              · simp [birdwatcherTypeOkB, not_not.mp h2]
          | gobgpBackend =>
            simp only [hbt] at h
            refine mainStep _ (by simp [mkBaseSource]) (by simp [mkBaseSource]) h ?_
            simp [goodSourceB, hc, hbt]
          | biorisBackend =>
            simp only [hbt] at h
            refine mainStep _ (by simp [mkBaseSource]) (by simp [mkBaseSource]) h ?_
            simp [goodSourceB, hc, hbt]

/-- Scan completeness of getSources: when every base candidate is good the
scan succeeds. -/
theorem getSourcesAux_ok_exists (cfg : IniFile) :
    ∀ (l : List IniSection) (ord : Nat),
      (∀ sec ∈ l, isSourceBase sec = true → goodSourceB cfg sec = true) →
      ∃ res, getSourcesAux cfg l ord = SourcesOutcome.ok res := by
  intro l
  induction l with
  | nil => intro ord _; exact ⟨[], rfl⟩
  | cons sec rest ih =>
    intro ord hall
    have hrest : ∀ s ∈ rest, isSourceBase s = true → goodSourceB cfg s = true :=
      fun s hs => hall s (List.mem_cons_of_mem _ hs)
    by_cases hb : isSourceBase sec = true
    case neg =>
      obtain ⟨res, hr⟩ := ih ord hrest
      exact ⟨res, by rw [getSourcesAux, if_neg hb]; exact hr⟩
    case pos =>
      have hgood := hall sec (List.mem_cons_self _ _) hb
      obtain ⟨res, hr⟩ := ih (ord + 1) hrest
      cases hc : childSectionsNamed cfg sec.name with
      | nil => simp [goodSourceB, hc] at hgood
      | cons c t =>
        cases t with
        | cons c2 t2 => simp [goodSourceB, hc] at hgood
        | nil =>
          simp only [goodSourceB, hc] at hgood
          cases hbt : getBackendType c with
          | unknownBackend => simp [hbt] at hgood
          | birdwatcherBackend =>
            simp only [hbt] at hgood
            have hty : ¬(mustString c "type" "" ≠ "single_table"
                ∧ mustString c "type" "" ≠ "multi_table") := by
              simp only [birdwatcherTypeOkB, Bool.or_eq_true, beq_iff_eq] at hgood
              rcases hgood with h1 | h2
              · exact fun hand => hand.1 h1
              · exact fun hand => hand.2 h2
            simp only [getSourcesAux, if_pos hb, hc, hbt]
            rw [if_neg hty, hr]
            exact ⟨_, rfl⟩
          | gobgpBackend =>
            simp only [getSourcesAux, if_pos hb, hc, hbt]
            rw [hr]
            exact ⟨_, rfl⟩
          | biorisBackend =>
            simp only [getSourcesAux, if_pos hb, hc, hbt]
            rw [hr]
            exact ⟨_, rfl⟩

/-- Error shape of getSources: a returned error names an offending base
candidate together with its defect. -/
theorem getSourcesAux_err_shape (cfg : IniFile) :
    ∀ (l : List IniSection) (ord : Nat) (p : List SourceConfig) (e : String),
      getSourcesAux cfg l ord = SourcesOutcome.err p e →
      ∃ sec ∈ l, isSourceBase sec = true ∧ offendsWith cfg sec e := by
  intro l
  induction l with
  | nil => intro ord p e h; simp [getSourcesAux] at h
  | cons sec rest ih =>
    intro ord p e h
    by_cases hb : isSourceBase sec = true
    case neg =>
      rw [getSourcesAux, if_neg hb] at h
      obtain ⟨t, ht, hbt, ho⟩ := ih ord p e h
      exact ⟨t, List.mem_cons_of_mem _ ht, hbt, ho⟩
    case pos =>
      rw [getSourcesAux, if_pos hb] at h
      cases hc : childSectionsNamed cfg sec.name with
      | nil =>
        simp only [hc] at h
        injection h with h1 h2
        exact ⟨sec, List.mem_cons_self _ _, hb, Or.inl ⟨hc, h2.symm⟩⟩
      | cons c t =>
        cases t with
        | cons c2 t2 =>
          simp only [hc] at h
          injection h with h1 h2
          exact ⟨sec, List.mem_cons_self _ _, hb,
            Or.inr (Or.inl ⟨by simp [hc], h2.symm⟩)⟩
        | nil =>
          simp only [hc] at h
          cases hbt : getBackendType c with
          | unknownBackend =>
            simp only [hbt] at h
            injection h with h1 h2
            exact ⟨sec, List.mem_cons_self _ _, hb,
              Or.inr (Or.inr ⟨c, hc, hbt, h2.symm⟩)⟩
          | birdwatcherBackend =>
            simp only [hbt] at h
            by_cases hty : mustString c "type" "" ≠ "single_table"
                ∧ mustString c "type" "" ≠ "multi_table"
            · rw [if_pos hty] at h; simp at h
            · rw [if_neg hty] at h
              cases hr : getSourcesAux cfg rest (ord + 1) with
              | ok res => rw [hr] at h; simp [consSource] at h
              | fatal e2 => rw [hr] at h; simp [consSource] at h
              | err p2 e2 =>
                rw [hr] at h
                simp only [consSource] at h
                injection h with h1 h2
                subst h2
                obtain ⟨t, ht, hbt2, ho⟩ := ih _ _ _ hr
                exact ⟨t, List.mem_cons_of_mem _ ht, hbt2, ho⟩
          | gobgpBackend =>
            simp only [hbt] at h
            cases hr : getSourcesAux cfg rest (ord + 1) with
            | ok res => rw [hr] at h; simp [consSource] at h
            | fatal e2 => rw [hr] at h; simp [consSource] at h
            | err p2 e2 =>
              rw [hr] at h
              simp only [consSource] at h
              injection h with h1 h2
              subst h2
              obtain ⟨t, ht, hbt2, ho⟩ := ih _ _ _ hr
              exact ⟨t, List.mem_cons_of_mem _ ht, hbt2, ho⟩
          | biorisBackend =>
            simp only [hbt] at h
            cases hr : getSourcesAux cfg rest (ord + 1) with
            | ok res => rw [hr] at h; simp [consSource] at h
            | fatal e2 => rw [hr] at h; simp [consSource] at h
            | err p2 e2 =>
              rw [hr] at h
              simp only [consSource] at h
              injection h with h1 h2
              subst h2
              obtain ⟨t, ht, hbt2, ho⟩ := ih _ _ _ hr
              exact ⟨t, List.mem_cons_of_mem _ ht, hbt2, ho⟩

/-- Fatal shape of getSources: the process exit comes from a base candidate
whose single child is a birdwatcher backend with an unaccepted type key. -/
theorem getSourcesAux_fatal_shape (cfg : IniFile) :
    ∀ (l : List IniSection) (ord : Nat) (e : String),
      getSourcesAux cfg l ord = SourcesOutcome.fatal e →
      ∃ sec ∈ l, isSourceBase sec = true ∧ ∃ c, childSectionsNamed cfg sec.name = [c]
        ∧ getBackendType c = BackendType.birdwatcherBackend
        ∧ birdwatcherTypeOkB c = false := by
  intro l
  induction l with
  | nil => intro ord e h; simp [getSourcesAux] at h
  | cons sec rest ih =>
    intro ord e h
    by_cases hb : isSourceBase sec = true
    case neg =>
      rw [getSourcesAux, if_neg hb] at h
      obtain ⟨t, ht, hbt, ho⟩ := ih ord e h
      exact ⟨t, List.mem_cons_of_mem _ ht, hbt, ho⟩
    case pos =>
      rw [getSourcesAux, if_pos hb] at h
      cases hc : childSectionsNamed cfg sec.name with
      | nil => simp only [hc] at h; simp at h
      | cons c t =>
        cases t with
        | cons c2 t2 => simp only [hc] at h; simp at h
        | nil =>
          simp only [hc] at h
          cases hbt : getBackendType c with
          | unknownBackend => simp only [hbt] at h; simp at h
          | birdwatcherBackend =>
            simp only [hbt] at h
            by_cases hty : mustString c "type" "" ≠ "single_table"
                ∧ mustString c "type" "" ≠ "multi_table"
            · refine ⟨sec, List.mem_cons_self _ _, hb, c, hc, hbt, ?_⟩
              simp [birdwatcherTypeOkB, beq_eq_false_iff_ne, hty.1, hty.2]
            · rw [if_neg hty] at h
              cases hr : getSourcesAux cfg rest (ord + 1) with
              | ok res => rw [hr] at h; simp [consSource] at h
              | err p2 e2 => rw [hr] at h; simp [consSource] at h
              | fatal e2 =>
                rw [hr] at h
                obtain ⟨t, ht, hbt2, ho⟩ := ih _ _ hr
                exact ⟨t, List.mem_cons_of_mem _ ht, hbt2, ho⟩
          | gobgpBackend =>
            simp only [hbt] at h
            cases hr : getSourcesAux cfg rest (ord + 1) with
            | ok res => rw [hr] at h; simp [consSource] at h
            | err p2 e2 => rw [hr] at h; simp [consSource] at h
            | fatal e2 =>
              rw [hr] at h
              obtain ⟨t, ht, hbt2, ho⟩ := ih _ _ hr
              exact ⟨t, List.mem_cons_of_mem _ ht, hbt2, ho⟩
          | biorisBackend =>
            simp only [hbt] at h
            cases hr : getSourcesAux cfg rest (ord + 1) with
            | ok res => rw [hr] at h; simp [consSource] at h
            | err p2 e2 => rw [hr] at h; simp [consSource] at h
            | fatal e2 =>
              rw [hr] at h
              obtain ⟨t, ht, hbt2, ho⟩ := ih _ _ hr
              exact ⟨t, List.mem_cons_of_mem _ ht, hbt2, ho⟩

/-- C3: a base source section with zero child sections or with two or more
child sections makes the whole configuration load fail, regardless of the
child contents: the scan never succeeds, the load never produces a
configuration, and a returned scan error is propagated unchanged by the
load and names an offending base source section together with its defect. -/
theorem load_aborts_on_bad_child_count (cfg : IniFile) (sec : IniSection)
    (hmem : sec ∈ childSectionsNamed cfg "source")
    (hbase : isSourceBase sec = true)
    (hcnt : (childSectionsNamed cfg sec.name).length ≠ 1) :
    (∀ res, getSources cfg ≠ SourcesOutcome.ok res)
    ∧ (∀ file c, loadConfigFromParsed file cfg ≠ LoadOutcome.ok c)
    ∧ (∀ p e, getSources cfg = SourcesOutcome.err p e →
        (∀ file, loadConfigFromParsed file cfg = LoadOutcome.err e)
        ∧ ∃ t ∈ childSectionsNamed cfg "source",
            isSourceBase t = true ∧ offendsWith cfg t e) := by
  have hnotgood : goodSourceB cfg sec = false := by
    cases hc : childSectionsNamed cfg sec.name with
    | nil => simp [goodSourceB, hc]
    | cons c t =>
      cases t with
      | nil => exact absurd (by simp [hc]) hcnt
      | cons c2 t2 => simp [goodSourceB, hc]
  have hnoOk : ∀ res, getSources cfg ≠ SourcesOutcome.ok res := by
    intro res hok
    have hg := (getSourcesAux_ok_shape cfg _ 0 res hok).1 sec hmem hbase
    rw [hnotgood] at hg
    cases hg
  refine ⟨hnoOk, ?_, ?_⟩
  · intro file c hl
    cases hs : getSources cfg with
    | ok res => exact hnoOk res hs
    | err p e => simp only [loadConfigFromParsed, hs] at hl; cases hl
    | fatal e => simp only [loadConfigFromParsed, hs] at hl; cases hl
  · intro p e hs
    refine ⟨?_, getSourcesAux_err_shape cfg _ 0 p e hs⟩
    intro file
    simp only [loadConfigFromParsed, hs]

/-- Concrete instantiation of the load abort theorem: a source section with
no child at all fails the whole load with the no-backend error. -/
theorem load_aborts_on_bad_child_count_witness :
    loadConfigFromParsed "alice.conf" [⟨"source.empty", [], ""⟩]
      = LoadOutcome.err "source.empty has no backend configuration" :=
  ((load_aborts_on_bad_child_count [⟨"source.empty", [], ""⟩] ⟨"source.empty", [], ""⟩
      (by decide) (by decide) (by decide)).2.2 [] _ rfl).1 "alice.conf"

/-- C1 fails as stated: this source consists of a single child whose name
carries the recognized birdwatcher suffix, yet construction does not
succeed and the loader returns no descriptor — getSources exits the
process through log.Fatal because the child carries no accepted
birdwatcher type key. -/
theorem backend_suffix_construction_counterexample :
    getBackendType ⟨"source.rs1.birdwatcher", [], ""⟩ = BackendType.birdwatcherBackend
    ∧ getSources [⟨"source.rs1", [], ""⟩, ⟨"source.rs1.birdwatcher", [], ""⟩]
        = SourcesOutcome.fatal
            "Configuration error (birdwatcher source) unknown birdwatcher type:" :=
  ⟨rfl, rfl⟩

/-- C1 amended: when every base source candidate has a single child of
recognized backend suffix and every birdwatcher child carries an accepted
type key, source construction succeeds and the loader returns one
descriptor per base source in scan order; and when, with every base source
having exactly one child and every birdwatcher child accepted, some base
source has a single child of unrecognized suffix, getSources returns an
unsupported backend error naming an offending base source section and the
whole load aborts with that error. -/
theorem backend_suffix_dispatch_amended (cfg : IniFile) :
    ((∀ sec ∈ childSectionsNamed cfg "source",
        isSourceBase sec = true → goodSourceB cfg sec = true) →
      ∃ res, getSources cfg = SourcesOutcome.ok res
        ∧ res.map (fun sc => sc.id)
            = ((childSectionsNamed cfg "source").filter (fun s => isSourceBase s)).map
                (fun s => goDropBytes 7 s.name))
    ∧ (∀ sec ∈ childSectionsNamed cfg "source", isSourceBase sec = true →
        ∀ c, childSectionsNamed cfg sec.name = [c] →
        getBackendType c = BackendType.unknownBackend →
        (∀ t ∈ childSectionsNamed cfg "source", isSourceBase t = true →
          (childSectionsNamed cfg t.name).length = 1) →
        (∀ t ∈ childSectionsNamed cfg "source", isSourceBase t = true →
          ∀ ct, childSectionsNamed cfg t.name = [ct] →
            getBackendType ct = BackendType.birdwatcherBackend →
            birdwatcherTypeOkB ct = true) →
        ∃ p e, getSources cfg = SourcesOutcome.err p e
          ∧ (∀ file, loadConfigFromParsed file cfg = LoadOutcome.err e)
          ∧ ∃ t ∈ childSectionsNamed cfg "source", isSourceBase t = true
              ∧ (∃ ct, childSectionsNamed cfg t.name = [ct]
                  ∧ getBackendType ct = BackendType.unknownBackend)
              ∧ e = t.name ++ " has an unsupported backend") := by
  constructor
  · intro hall
    obtain ⟨res, hok⟩ := getSourcesAux_ok_exists cfg _ 0 hall
    exact ⟨res, hok, (getSourcesAux_ok_shape cfg _ 0 res hok).2.1⟩
  · intro sec hmem hbase c hc hunk hone hbw
    have hnotgood : goodSourceB cfg sec = false := by
      simp [goodSourceB, hc, hunk]
    have hnoOk : ∀ res, getSources cfg ≠ SourcesOutcome.ok res := by
      intro res hok
      have hg := (getSourcesAux_ok_shape cfg _ 0 res hok).1 sec hmem hbase
      rw [hnotgood] at hg
      cases hg
    have hnoFatal : ∀ e, getSources cfg ≠ SourcesOutcome.fatal e := by
      intro e hf
      obtain ⟨t, ht, htb, ct, hct, hctbw, hctbad⟩ :=
        getSourcesAux_fatal_shape cfg _ 0 e hf
      have := hbw t ht htb ct hct hctbw
      rw [hctbad] at this
      cases this
    cases hs : getSources cfg with
    | ok res => exact absurd hs (hnoOk res)
    | fatal e => exact absurd hs (hnoFatal e)
    | err p e =>
      obtain ⟨t, ht, htb, hoff⟩ := getSourcesAux_err_shape cfg _ 0 p e hs
      refine ⟨p, e, rfl, ?_, t, ht, htb, ?_⟩
      · intro file
        simp only [loadConfigFromParsed, hs]
      · rcases hoff with ⟨hnil, _⟩ | ⟨hlen, _⟩ | ⟨ct, hct, hctu, he⟩
        · exact absurd (hone t ht htb) (by rw [hnil]; simp)
        · exact absurd (hone t ht htb) (by omega)
        · exact ⟨⟨ct, hct, hctu⟩, he⟩

/-- Concrete instantiation of the amended dispatch theorem: a bioris child
suffix yields the descriptor for its source, and an unrecognized child
suffix aborts the whole load with the unsupported backend error. -/
theorem backend_suffix_dispatch_amended_witness :
    sourcesOutcomeIds (getSources [⟨"source.rs1", [("name", "RS 1")], ""⟩,
        ⟨"source.rs1.bioris", [("api", "h:1"), ("router", "r1")], ""⟩])
      = some ["rs1"]
    ∧ loadConfigFromParsed "alice.conf" [⟨"source.rs2", [], ""⟩,
        ⟨"source.rs2.quagga", [], ""⟩]
      = LoadOutcome.err "source.rs2 has an unsupported backend" := by
  constructor
  · obtain ⟨res, hok, hids⟩ :=
      (backend_suffix_dispatch_amended
        [⟨"source.rs1", [("name", "RS 1")], ""⟩,
         ⟨"source.rs1.bioris", [("api", "h:1"), ("router", "r1")], ""⟩]).1
      (by decide)
    rw [hok]
    simp only [sourcesOutcomeIds]
    rw [hids]
    decide
  · obtain ⟨p, e, hs, hload, t, ht, htb, hshape, he⟩ :=
      (backend_suffix_dispatch_amended
        [⟨"source.rs2", [], ""⟩, ⟨"source.rs2.quagga", [], ""⟩]).2
      ⟨"source.rs2", [], ""⟩ (by decide) (by decide)
      ⟨"source.rs2.quagga", [], ""⟩ (by decide) (by decide) (by decide)
      (by
        intro t ht htb ct hct hcbw
        have hcand : childSectionsNamed
            [(⟨"source.rs2", [], ""⟩ : IniSection), ⟨"source.rs2.quagga", [], ""⟩]
            "source"
            = [⟨"source.rs2", [], ""⟩, ⟨"source.rs2.quagga", [], ""⟩] := rfl
        rw [hcand] at ht
        rcases List.mem_cons.mp ht with rfl | ht2
        · have h2 : childSectionsNamed
              [(⟨"source.rs2", [], ""⟩ : IniSection), ⟨"source.rs2.quagga", [], ""⟩]
              "source.rs2"
              = [⟨"source.rs2.quagga", [], ""⟩] := rfl
          rw [h2] at hct
          injection hct with h3 h4
          rw [← h3] at hcbw
          exact absurd hcbw (by decide)
        · rcases List.mem_cons.mp ht2 with rfl | ht3
          · exact absurd htb (by decide)
          · cases ht3)
    have heval : getSources [(⟨"source.rs2", [], ""⟩ : IniSection),
        ⟨"source.rs2.quagga", [], ""⟩]
        = SourcesOutcome.err [] "source.rs2 has an unsupported backend" := rfl
    rw [hs] at heval
    injection heval with h1 h2
    rw [← h2]
    exact hload "alice.conf"

/-- Splitting a separator-free list yields the single accumulated piece. -/
theorem goSplitAux_not_mem (c : Char) :
    ∀ (l acc : List Char), c ∉ l → goSplitAux c l acc = [acc.reverse ++ l] := by
  intro l
  induction l with
  | nil => intro acc _; simp [goSplitAux]
  | cons x xs ih =>
    intro acc hx
    have h1 : ¬(x = c) := fun h => hx (by rw [h]; exact List.mem_cons_self _ _)
    have h2 : c ∉ xs := fun h => hx (List.mem_cons_of_mem _ h)
    rw [goSplitAux, if_neg h1, ih _ h2]
    simp

/-- Splitting at the first separator occurrence. -/
theorem goSplitAux_first (c : Char) :
    ∀ (a b acc : List Char), c ∉ a →
      goSplitAux c (a ++ c :: b) acc = (acc.reverse ++ a) :: goSplitChars c b := by
  intro a
  induction a with
  | nil =>
    intro b acc _
    simp [goSplitAux, goSplitChars]
  | cons x xs ih =>
    intro b acc hx
    have h1 : ¬(x = c) := fun h => hx (by rw [h]; exact List.mem_cons_self _ _)
    have h2 : c ∉ xs := fun h => hx (List.mem_cons_of_mem _ h)
    rw [List.cons_append, goSplitAux, if_neg h1, ih _ _ h2]
    simp

/-- The split of a list is never empty. -/
theorem goSplitAux_ne_nil (c : Char) :
    ∀ (l acc : List Char), goSplitAux c l acc ≠ [] := by
  intro l
  induction l with
  | nil => intro acc h; simp [goSplitAux] at h
  | cons x xs ih =>
    intro acc h
    rw [goSplitAux] at h
    by_cases hx : x = c
    · rw [if_pos hx] at h; cases h
    · rw [if_neg hx] at h; exact ih _ h

/-- First occurrence decomposition of a member. -/
theorem mem_first_split (c : Char) :
    ∀ (l : List Char), c ∈ l → ∃ a b, l = a ++ c :: b ∧ c ∉ a := by
  intro l
  induction l with
  | nil => intro h; cases h
  | cons x xs ih =>
    intro h
    by_cases hx : x = c
    · subst hx; exact ⟨[], xs, rfl, by simp⟩
    · rcases List.mem_cons.mp h with h1 | h2
      · exact absurd h1.symm hx
      · obtain ⟨a, b, rfl, ha⟩ := ih h2
        refine ⟨x :: a, b, rfl, ?_⟩
        intro hm
        rcases List.mem_cons.mp hm with h3 | h4
        · exact hx h3.symm
        · exact ha h4

/-- One piece characterizes the absence of the separator. -/
theorem goSplitChars_len_one (c : Char) (l : List Char) :
    (goSplitChars c l).length = 1 ↔ c ∉ l := by
  constructor
  · intro h1
    by_contra hmem
    obtain ⟨a, b, rfl, ha⟩ := mem_first_split c _ hmem
    rw [goSplitChars, goSplitAux_first c a b [] ha] at h1
    simp at h1
    exact goSplitAux_ne_nil c b [] h1
  · intro h
    rw [goSplitChars, goSplitAux_not_mem c l [] h]
    rfl

/-- Two pieces characterize exactly one separator occurrence. -/
theorem goSplitChars_len_two (c : Char) (l : List Char) :
    (goSplitChars c l).length = 2 ↔ ∃ a b, l = a ++ c :: b ∧ c ∉ a ∧ c ∉ b := by
  constructor
  · intro h2
    by_cases hmem : c ∈ l
    · obtain ⟨a, b, rfl, ha⟩ := mem_first_split c _ hmem
      rw [goSplitChars, goSplitAux_first c a b [] ha] at h2
      simp only [List.length_cons, List.reverse_nil, List.nil_append] at h2
      have hb : (goSplitChars c b).length = 1 := by omega
      exact ⟨a, b, rfl, ha, (goSplitChars_len_one c b).mp hb⟩
    · rw [(goSplitChars_len_one c l).mpr hmem] at h2
      cases h2
  · rintro ⟨a, b, rfl, ha, hb⟩
    rw [goSplitChars, goSplitAux_first c a b [] ha]
    have hlen := (goSplitChars_len_one c b).mpr hb
    simp only [List.length_cons]
    omega

/-- Uniqueness of the first-occurrence decomposition. -/
theorem first_split_unique (c : Char) :
    ∀ (a b a2 b2 : List Char), a ++ c :: b = a2 ++ c :: b2 → c ∉ a → c ∉ a2 →
      a = a2 ∧ b = b2 := by
  intro a
  induction a with
  | nil =>
    intro b a2 b2 heq ha ha2
    cases a2 with
    | nil =>
      simp only [List.nil_append, List.cons.injEq] at heq
      exact ⟨rfl, heq.2⟩
    | cons y ys =>
      simp only [List.nil_append, List.cons_append, List.cons.injEq] at heq
      exact absurd (by rw [heq.1]; exact List.mem_cons_self _ _) ha2
  | cons x xs ih =>
    intro b a2 b2 heq ha ha2
    cases a2 with
    | nil =>
      simp only [List.cons_append, List.nil_append, List.cons.injEq] at heq
      exact absurd (by rw [← heq.1]; exact List.mem_cons_self _ _) ha
    | cons y ys =>
      simp only [List.cons_append, List.cons.injEq] at heq
      obtain ⟨h1, h2⟩ := heq
      have hxs : c ∉ xs := fun h => ha (List.mem_cons_of_mem _ h)
      have hys : c ∉ ys := fun h => ha2 (List.mem_cons_of_mem _ h)
      obtain ⟨ha3, hb3⟩ := ih b ys b2 h2 hxs hys
      exact ⟨by rw [h1, ha3], hb3⟩

/-- The sections accepted by the scan of getSources are exactly the members
whose name is the seven characters source-dot followed by a dot-free id. -/
theorem acceptedSourceSection_iff (cfg : IniFile) (sec : IniSection) :
    acceptedSourceSection cfg sec
      ↔ sec ∈ cfg ∧ ∃ id : List Char, ('.' ∉ id)
          ∧ sec.name.toList = "source.".toList ++ id := by
  unfold acceptedSourceSection
  constructor
  · rintro ⟨hmem, hbase⟩
    have hmem2 := List.mem_filter.mp hmem
    refine ⟨hmem2.1, ?_⟩
    have hpfx : ("source.").toList.isPrefixOf sec.name.toList = true := hmem2.2
    rw [List.isPrefixOf_iff_prefix] at hpfx
    obtain ⟨rest, hrest⟩ := hpfx
    have hlen : (goSplitChars '.' sec.name.toList).length = 2 := by
      simp only [isSourceBase, goSplit, List.length_map, beq_iff_eq] at hbase
      exact hbase
    obtain ⟨a, b, hab, ha, hb⟩ := (goSplitChars_len_two '.' _).mp hlen
    have hname : sec.name.toList = "source".toList ++ '.' :: rest := by
      rw [← hrest]
      simp
    have hsrc : ('.' : Char) ∉ "source".toList := by decide
    obtain ⟨h1, h2⟩ := first_split_unique '.' a b "source".toList rest
      (by rw [← hab, hname]) ha hsrc
    exact ⟨rest, h2 ▸ hb, hrest.symm⟩
  · rintro ⟨hmem, id, hid, hname⟩
    constructor
    · refine List.mem_filter.mpr ⟨hmem, ?_⟩
      show ("source.").toList.isPrefixOf sec.name.toList = true
      rw [List.isPrefixOf_iff_prefix]
      exact ⟨id, hname.symm⟩
    · have hlen : (goSplitChars '.' sec.name.toList).length = 2 := by
        apply (goSplitChars_len_two '.' _).mpr
        refine ⟨"source".toList, id, ?_, by decide, hid⟩
        rw [hname]
        simp
      simp only [isSourceBase, goSplit, List.length_map, beq_iff_eq]
      exact hlen

/-- C5 fails as stated: this top-level section name has the two-segment
colon form source:rs1 with exactly one colon-delimited suffix, yet the scan
accepts nothing and the loader returns no descriptor for it — discovery is
keyed on the dot separator of the section tree, not on the colon. -/
theorem source_discovery_counterexample :
    (goSplit ':' "source:rs1").length = 2
    ∧ getSources [⟨"source:rs1", [], ""⟩,
        ⟨"source:rs1.bioris", [("api", "h:1"), ("router", "r1")], ""⟩]
      = SourcesOutcome.ok [] := by
  decide

/-- C5 amended: discovery accepts exactly the top-level sections whose name
has the two-segment dot form source.id (exactly one dot-delimited suffix);
each accepted identifier is the section name with its seven leading
characters removed; and on a successful scan the descriptors carry those
identifiers and strictly increasing order counters starting at zero, in
scan order. -/
theorem source_discovery_amended (cfg : IniFile) :
    (∀ sec : IniSection,
      acceptedSourceSection cfg sec
        ↔ sec ∈ cfg ∧ ∃ id : List Char, ('.' ∉ id)
            ∧ sec.name.toList = "source.".toList ++ id)
    ∧ (∀ (sec : IniSection) (id : List Char),
        sec.name.toList = "source.".toList ++ id →
        goDropBytes 7 sec.name = id.asString)
    ∧ (∀ res, getSources cfg = SourcesOutcome.ok res →
        res.map (fun sc => sc.id)
          = ((childSectionsNamed cfg "source").filter (fun s => isSourceBase s)).map
              (fun s => goDropBytes 7 s.name)
        ∧ res.map (fun sc => sc.order) = List.range res.length) := by
  refine ⟨acceptedSourceSection_iff cfg, ?_, ?_⟩
  · intro sec id hname
    unfold goDropBytes
    rw [hname]
    rw [show (7 : Nat) = ("source.".toList).length from rfl, List.drop_left]
  · intro res hok
    obtain ⟨_, hids, hords⟩ := getSourcesAux_ok_shape cfg _ 0 res hok
    refine ⟨hids, ?_⟩
    have hlen : res.length
        = ((childSectionsNamed cfg "source").filter (fun s => isSourceBase s)).length := by
      have := congrArg List.length hids
      simpa using this
    rw [hords, List.range_eq_range', hlen]

/-- Concrete instantiation of the amended discovery theorem: the dot-form
source section is accepted, and the successful scan yields the identifier
rs1 with order zero. -/
theorem source_discovery_amended_witness :
    acceptedSourceSection
      [⟨"source.rs1", [("name", "RS 1")], ""⟩,
       ⟨"source.rs1.bioris", [("api", "h:1"), ("router", "r1")], ""⟩]
      ⟨"source.rs1", [("name", "RS 1")], ""⟩
    ∧ ([(⟨"rs1", 0, "RS 1", "", [], BackendType.biorisBackend,
          ⟨"", "", "", "", "", "", "", "", ""⟩, ⟨"", ""⟩,
          ⟨"rs1", "RS 1", "h:1", "r1", 0⟩, none⟩ : SourceConfig)].map
        (fun sc => sc.id) = ["rs1"])
    ∧ ([(⟨"rs1", 0, "RS 1", "", [], BackendType.biorisBackend,
          ⟨"", "", "", "", "", "", "", "", ""⟩, ⟨"", ""⟩,
          ⟨"rs1", "RS 1", "h:1", "r1", 0⟩, none⟩ : SourceConfig)].map
        (fun sc => sc.order) = [0]) := by
  refine ⟨?_, ?_, ?_⟩
  · exact ((source_discovery_amended
      [⟨"source.rs1", [("name", "RS 1")], ""⟩,
       ⟨"source.rs1.bioris", [("api", "h:1"), ("router", "r1")], ""⟩]).1
      ⟨"source.rs1", [("name", "RS 1")], ""⟩).mpr
      ⟨by decide, "rs1".toList, by decide, by decide⟩
  · exact (((source_discovery_amended
      [⟨"source.rs1", [("name", "RS 1")], ""⟩,
       ⟨"source.rs1.bioris", [("api", "h:1"), ("router", "r1")], ""⟩]).2.2
      [⟨"rs1", 0, "RS 1", "", [], BackendType.biorisBackend,
        ⟨"", "", "", "", "", "", "", "", ""⟩, ⟨"", ""⟩,
        ⟨"rs1", "RS 1", "h:1", "r1", 0⟩, none⟩] rfl).1).trans (by decide)
  · exact (((source_discovery_amended
      [⟨"source.rs1", [("name", "RS 1")], ""⟩,
       ⟨"source.rs1.bioris", [("api", "h:1"), ("router", "r1")], ""⟩]).2.2
      [⟨"rs1", 0, "RS 1", "", [], BackendType.biorisBackend,
        ⟨"", "", "", "", "", "", "", "", ""⟩, ⟨"", ""⟩,
        ⟨"rs1", "RS 1", "h:1", "r1", 0⟩, none⟩] rfl).2).trans (by decide)
